import Mathlib

/-!
Shallow embedding of the WeakPasswordTest credential-trial engine
(`src/detectors/ssh_detector.py`) and of the trial orchestrator
(`src/main.py`, `src/utils/result_handler.py`).

Network interaction is abstracted by outcome oracles: `ok n` is the outcome
of the `n`-th attempt on the key path, `ok2 i j` the outcome of attempt `j`
on the password at list index `i`, and `jit n` the value returned by the
`n`-th call to `random.uniform(min_delay, max_delay)` on the key path.
The engine's control flow, its attempt/sleep trace and the returned result
dictionaries are modelled exactly; wall-clock timestamps and log text are
outside the model (error messages are kept structurally in `ErrMsg`).
-/

namespace WeakPasswordTest

/-- Outcome of one call to the external transport capability
(`paramiko.SSHClient.connect`, together with `_load_private_key` on the key
path), classified by the exception classes the source catches.  `other` is
any exception matching none of the listed `except` clauses: on the key path
it is caught by the generic `except Exception`, on the password path it
propagates out of `_try_password_authentication`. -/
inductive Outcome
  | success
  | authFail
  | noValidConn
  | badHostKey
  | sshExc
  | other
deriving DecidableEq, Repr

/-- Error messages stored in the `error` field of the result dictionaries,
modelled structurally rather than as rendered strings. -/
inductive ErrMsg
  | invalidPort (port : Int)
  | emptyTargetOrUsername
  | keyAuthFailed
  | connAttemptFailed (n : Nat) (o : Outcome)
  | authFailed
  | noValidConnections
  | badHostKeyMsg
  | sshProtocolError
deriving DecidableEq, Repr

/-- Which credential an attempt used: the (single, optional) private key, or
the password at a given index of the password list. -/
inductive CredRef
  | key
  | password (idx : Nat)
deriving DecidableEq, Repr

/-- Ghost trace of the observable actions of a trial: one `attempt c k` per
login try (`k` is the 0-based value of the `attempt` loop variable for that
credential) and one `sleep d` per `await asyncio.sleep(jitter)`. -/
inductive Event
  | attempt (cred : CredRef) (k : Nat)
  | sleep (d : Rat)
deriving DecidableEq, Repr

/-- The result dictionary built by `detect`, `_try_key_authentication` and
`_try_password_authentication` (all three share this shape). -/
structure FullResult where
  target : String
  port : Int
  username : String
  success : Bool
  password : Option String
  key_used : Option String
  error : Option ErrMsg
deriving DecidableEq, Repr

/-- Fresh result dictionary with all failure/credential fields unset, as
initialised at the top of each of the three methods. -/
def baseResult (target : String) (port : Int) (username : String) : FullResult :=
  { target := target, port := port, username := username, success := false,
    password := none, key_used := none, error := none }

/-- Validation errors raised by `SSHDetector.__init__`. -/
inductive ConfigError
  | negativeRetries
  | nonPositiveTimeout
  | negativeMinDelay
  | maxBelowMin
deriving DecidableEq, Repr

/-- Detector state after successful construction.  `max_retries` is kept as
a `Nat`: construction rejects negative values. -/
structure SSHDetector where
  timeout : Int
  max_retries : Nat
  min_delay : Rat
  max_delay : Rat
deriving DecidableEq, Repr

/-- `SSHDetector.__init__`: validates the configuration in source order and
raises (`Except.error`) on the first violated check. -/
def SSHDetector.init (timeout max_retries : Int) (min_delay max_delay : Rat) :
    Except ConfigError SSHDetector :=
  if max_retries < 0 then .error .negativeRetries
  else if timeout ≤ 0 then .error .nonPositiveTimeout
  else if min_delay < 0 then .error .negativeMinDelay
  else if max_delay < min_delay then .error .maxBelowMin
  else .ok { timeout := timeout, max_retries := max_retries.toNat,
             min_delay := min_delay, max_delay := max_delay }

/-- The `for attempt in range(self.max_retries)` loop of
`_try_key_authentication`.  `fuel` is the number of remaining iterations and
`i` the current value of `attempt` (the caller maintains
`i + fuel = max_retries`); `err` is the current value of `result['error']`,
which persists across iterations.  On `success` the loop returns with the
carried error untouched; on `AuthenticationException` it sets the error and
breaks; every other exception is caught by the generic `except Exception`,
sets the error to the attempt-failed message and, when
`attempt < max_retries - 1`, sleeps a jitter before the next iteration. -/
def keyRetryLoop (D : SSHDetector) (ok : Nat → Outcome) (jit : Nat → Rat)
    (tgt : String) (port : Int) (user : String) (key_path : String) :
    Nat → Nat → Option ErrMsg → List Event × FullResult
  | 0, _, err =>
      ([], { baseResult tgt port user with key_used := some key_path, error := err })
  | fuel + 1, i, err =>
      match ok i with
      | .success =>
          ([.attempt .key i],
           { baseResult tgt port user with
               key_used := some key_path, success := true, error := err })
      | .authFail =>
          ([.attempt .key i],
           { baseResult tgt port user with
               key_used := some key_path, error := some .keyAuthFailed })
      | o =>
          let rest := keyRetryLoop D ok jit tgt port user key_path fuel (i + 1)
            (some (.connAttemptFailed (i + 1) o))
          if (i : Int) < (D.max_retries : Int) - 1 then
            (.attempt .key i :: .sleep (jit i) :: rest.1, rest.2)
          else
            (.attempt .key i :: rest.1, rest.2)

/-- `SSHDetector._try_key_authentication`. -/
def tryKeyAuthentication (D : SSHDetector) (ok : Nat → Outcome) (jit : Nat → Rat)
    (tgt : String) (port : Int) (user : String) (key_path : String) :
    List Event × FullResult :=
  keyRetryLoop D ok jit tgt port user key_path D.max_retries 0 none

/-- How the inner `for attempt in range(self.max_retries)` loop of
`_try_password_authentication` ends for one password: a successful return,
a `break` with `result['error']` set, falling off the loop without any
iteration (only possible when `max_retries = 0`), or an uncaught exception
propagating. -/
inductive InnerRes
  | success
  | broke (e : ErrMsg)
  | exhausted
  | raised
deriving DecidableEq, Repr

/-- The inner retry loop of `_try_password_authentication` for the password
at index `pIdx`.  In the source every `except` clause ends in `break` and a
successful connect returns, so the loop body never reaches a second
iteration: the recursion the `for` loop would otherwise perform is dead and
the loop contributes at most one attempt.  `fuel` is `max_retries` at the
call site and `i` the value of `attempt` (always 0 in practice). -/
def passwordRetryLoop (ok2 : Nat → Nat → Outcome) (pIdx : Nat) :
    Nat → Nat → List Event × InnerRes
  | 0, _ => ([], .exhausted)
  | _ + 1, i =>
      match ok2 pIdx i with
      | .success => ([.attempt (.password pIdx) i], .success)
      | .authFail => ([.attempt (.password pIdx) i], .broke .authFailed)
      | .noValidConn => ([.attempt (.password pIdx) i], .broke .noValidConnections)
      | .badHostKey => ([.attempt (.password pIdx) i], .broke .badHostKeyMsg)
      | .sshExc => ([.attempt (.password pIdx) i], .broke .sshProtocolError)
      | .other => ([.attempt (.password pIdx) i], .raised)

/-- The outer `for password in passwords` loop of
`_try_password_authentication`.  `idx` is the index of the head of the
remaining list in the original list; `err` is the current
`result['error']`, which persists across passwords (in particular a later
success keeps an earlier password's error message).  A `none` result means
an exception propagated out of the method. -/
def passwordLoop (D : SSHDetector) (ok2 : Nat → Nat → Outcome)
    (tgt : String) (port : Int) (user : String) :
    List String → Nat → Option ErrMsg → List Event × Option FullResult
  | [], _, err => ([], some { baseResult tgt port user with error := err })
  | p :: rest, idx, err =>
      let step := passwordRetryLoop ok2 idx D.max_retries 0
      match step.2 with
      | .success =>
          (step.1, some { baseResult tgt port user with
                            success := true, password := some p, error := err })
      | .broke e =>
          let cont := passwordLoop D ok2 tgt port user rest (idx + 1) (some e)
          (step.1 ++ cont.1, cont.2)
      | .exhausted =>
          let cont := passwordLoop D ok2 tgt port user rest (idx + 1) err
          (step.1 ++ cont.1, cont.2)
      | .raised => (step.1, none)

/-- `SSHDetector._try_password_authentication`. -/
def tryPasswordAuthentication (D : SSHDetector) (ok2 : Nat → Nat → Outcome)
    (tgt : String) (port : Int) (user : String) (passwords : List String) :
    List Event × Option FullResult :=
  passwordLoop D ok2 tgt port user passwords 0 none

/-- Value returned by `detect`: either the full result dictionary, or the
two-field dictionary `d := Dict.mk error success` returned by the
empty-target/username early exit. -/
inductive DetectResult
  | full (r : FullResult)
  | short (error : ErrMsg) (success : Bool)
deriving DecidableEq, Repr

/-- How a call to `detect` ends: a returned dictionary, or an exception
propagating out (only possible from the password path). -/
inductive DetectOut
  | ret (r : DetectResult)
  | raised
deriving DecidableEq, Repr

/-- The `success` entry of a returned dictionary. -/
def DetectResult.successB : DetectResult → Bool
  | .full r => r.success
  | .short _ s => s

/-- The `success` entry of the value `detect` produced (`false` when the
call raised). -/
def DetectOut.successB : DetectOut → Bool
  | .ret r => r.successB
  | .raised => false

/-- The `password` entry of the value `detect` produced, when present. -/
def DetectOut.passwordField : DetectOut → Option String
  | .ret (.full r) => r.password
  | _ => none

/-- Whether `detect` returned the two-field early-exit dictionary. -/
def DetectOut.returnsShort : DetectOut → Bool
  | .ret (.short _ _) => true
  | _ => false

/-- Whether the inner password loop ended in a way that lets the outer loop
advance to the next password (a `break` or zero iterations). -/
def InnerRes.advances : InnerRes → Bool
  | .broke _ => true
  | .exhausted => true
  | _ => false

/-- The tail of `detect` after the key phase: run password authentication
when the password list is non-empty (Python truthiness of the list), return
its result on success, and otherwise return the untouched outer `result`
dictionary.  `evs` is the trace accumulated by the key phase. -/
def detectPassPhase (D : SSHDetector) (ok2 : Nat → Nat → Outcome)
    (tgt : String) (port : Int) (user : String) (passwords : List String)
    (evs : List Event) : List Event × DetectOut :=
  if passwords.isEmpty then (evs, .ret (.full (baseResult tgt port user)))
  else
    let pres := tryPasswordAuthentication D ok2 tgt port user passwords
    match pres.2 with
    | none => (evs ++ pres.1, .raised)
    | some r =>
        if r.success then (evs ++ pres.1, .ret (.full r))
        else (evs ++ pres.1, .ret (.full (baseResult tgt port user)))

/-- `SSHDetector.detect`: port validation first, then the empty
target/username early exit, then key authentication (when a key path was
supplied) with an early return on success, then the password phase. -/
def detect (D : SSHDetector) (ok : Nat → Outcome) (jit : Nat → Rat)
    (ok2 : Nat → Nat → Outcome) (target : String) (port : Int) (username : String)
    (passwords : List String) (private_key_path : Option String) :
    List Event × DetectOut :=
  if ¬(1 ≤ port ∧ port ≤ 65535) then
    ([], .ret (.full { baseResult target port username with
                         error := some (.invalidPort port) }))
  else if target = "" ∨ username = "" then
    ([], .ret (.short .emptyTargetOrUsername false))
  else
    match private_key_path with
    | some kp =>
        let kres := tryKeyAuthentication D ok jit target port username kp
        if kres.2.success then (kres.1, .ret (.full kres.2))
        else detectPassPhase D ok2 target port username passwords kres.1
    | none => detectPassPhase D ok2 target port username passwords []

/-- Number of attempt events for a given credential in a trace. -/
def attemptsOf (c : CredRef) (evs : List Event) : Nat :=
  evs.countP (fun e => match e with | .attempt d _ => d == c | _ => false)

/-- Number of sleep events in a trace. -/
def countSleeps (evs : List Event) : Nat :=
  evs.countP (fun e => match e with | .sleep _ => true | _ => false)

/-- Event predicate: every password attempt in the trace uses an index at
most `bound`. -/
def Event.passIdxLe (bound : Nat) : Event → Bool
  | .attempt (.password j) _ => decide (j ≤ bound)
  | _ => true

/-- Event predicate: the event is not a password attempt. -/
def Event.notPasswordAttempt : Event → Bool
  | .attempt (.password _) _ => false
  | _ => true

/-- Event predicate: if the event is a sleep, its duration lies in
`[mn, mx)`. -/
def Event.sleepWithin (mn mx : Rat) : Event → Bool
  | .sleep d => decide (mn ≤ d) && decide (d < mx)
  | _ => true

/-- The trace of a key-path run all of whose attempts fall into the generic
`except Exception` handler: attempts `i, i+1, ...` for `fuel` iterations of
a loop bounded by `m = max_retries`, with a jitter sleep after every
attempt except the last one of the loop. -/
def keyEvtsFrom (m : Nat) (jit : Nat → Rat) : Nat → Nat → List Event
  | _, 0 => []
  | i, fuel + 1 =>
      .attempt .key i ::
        ((if i + 1 < m then [Event.sleep (jit i)] else []) ++ keyEvtsFrom m jit (i + 1) fuel)

/-- How `asyncio.wait_for(detector.detect(...), timeout=30)` ends inside
`run_detection`: the hard per-task deadline fired (`asyncio.TimeoutError`),
or `detect` finished (returning or raising). -/
inductive TaskOutcome
  | timedOut
  | finished (out : DetectOut)
deriving DecidableEq, Repr

/-- One entry of `ResultHandler.results` as built by
`ResultHandler.add_result` (the wall-clock `timestamp` field is outside the
model). -/
structure ResultRecord where
  protocol : String
  target : String
  port : Int
  username : String
  password : Option String
  success : Bool
  error : Option ErrMsg
deriving DecidableEq, Repr

/-- `ResultHandler.add_result`: appends this record to the handler's result
list, storing the password argument unchanged. -/
def ResultHandler.add_result (protocol target : String) (port : Int) (username : String)
    (password : Option String) (success : Bool) (error : Option ErrMsg) : ResultRecord :=
  { protocol := protocol, target := target, port := port, username := username,
    password := password, success := success, error := error }

/-- One task of the orchestrator's cross product, together with the data
`run_detection` consults: whether the protocol is in `self.detectors`,
whether the target passed the `is_valid_ip` regex (modelled as an abstract
boolean), and how awaiting the detector ended. -/
structure TrialTask where
  protocol : String
  supported : Bool
  ipValid : Bool
  target : String
  port : Int
  username : String
  outcome : TaskOutcome
deriving DecidableEq, Repr

/-- `WeakPasswordDetector.run_detection`: what (if anything) the task adds
to `ResultHandler.results`.  Unsupported protocol and invalid target IP
return early; a deadline timeout and any exception from `detect` are caught
by the `except Exception` handler and only logged; a returned result is
recorded only when `result['success']` is truthy.  (For the two-field
early-exit dictionary, `success` is always `False`; were it true, the
`result['password']` access would raise `KeyError`, caught by the same
handler — either way nothing is recorded.) -/
def run_detection (t : TrialTask) : Option ResultRecord :=
  if t.supported = false then none
  else if t.ipValid = false then none
  else
    match t.outcome with
    | .timedOut => none
    | .finished .raised => none
    | .finished (.ret (.full fr)) =>
        if fr.success then
          some (ResultHandler.add_result t.protocol t.target t.port t.username
                  fr.password fr.success fr.error)
        else none
    | .finished (.ret (.short _ _)) => none

/-- The orchestrator run (`asyncio.gather` over all tasks): the final
content of `ResultHandler.results`.  Exceptions inside `run_detection` are
caught per task, so every task contributes independently and the run never
aborts. -/
def gatherResults (ts : List TrialTask) : List ResultRecord :=
  ts.filterMap run_detection

/-- Whether a task ends up recorded: protocol supported, IP valid, and the
detector returned a full result with `success` true. -/
def taskRecorded (t : TrialTask) : Bool :=
  t.supported && t.ipValid &&
    (match t.outcome with
     | .finished (.ret (.full fr)) => fr.success
     | _ => false)

/-- The `'*' * len(password)` masking used by the detector's own success
log line. -/
def masked_password (p : String) : String :=
  String.mk (List.replicate p.length '*')

/-- The password cell of one row of the HTML report
(`ResultHandler._generate_table_rows`):
`result['password'] if result['password'] else "N/A"`, with Python
truthiness (both `None` and the empty string render as `"N/A"`). -/
def reportPasswordCell (r : ResultRecord) : String :=
  match r.password with
  | some p => if p = "" then "N/A" else p
  | none => "N/A"

/-- C7: constructing the engine succeeds exactly when minDelay ≤ maxDelay,
minDelay ≥ 0, maxRetries ≥ 0 and timeout > 0; any violation fails with a
configuration error before any attempt is possible, and accepted values are
stored unclamped. -/
theorem c7_config_validation (t r : Int) (mn mx : Rat) :
    ((SSHDetector.init t r mn mx).isOk = true ↔
      (mn ≤ mx ∧ 0 ≤ mn ∧ 0 ≤ r ∧ 0 < t)) ∧
    (∀ D, SSHDetector.init t r mn mx = .ok D →
      D.timeout = t ∧ (D.max_retries : Int) = r ∧ D.min_delay = mn ∧ D.max_delay = mx) := by
  constructor
  · unfold SSHDetector.init
    split_ifs with h1 h2 h3 h4
    · simp only [Except.isOk, Except.toBool, Bool.false_eq_true, false_iff]
      rintro ⟨-, -, hr, -⟩; omega
    · simp only [Except.isOk, Except.toBool, Bool.false_eq_true, false_iff]
      rintro ⟨-, -, -, ht⟩; omega
    · simp only [Except.isOk, Except.toBool, Bool.false_eq_true, false_iff]
      rintro ⟨-, hmn, -, -⟩; exact absurd hmn (by linarith)
    · simp only [Except.isOk, Except.toBool, Bool.false_eq_true, false_iff]
      rintro ⟨hle, -, -, -⟩; exact absurd hle (by linarith)
    · simp only [Except.isOk, Except.toBool, true_iff]
      exact ⟨by linarith, by linarith, by omega, by omega⟩
  · intro D hD
    unfold SSHDetector.init at hD
    split_ifs at hD with h1 h2 h3 h4
    injection hD with hD
    rw [← hD]
    exact ⟨rfl, Int.toNat_of_nonneg (by omega), rfl, rfl⟩

/-- Witness for C7 at a concrete valid configuration. -/
theorem c7_config_validation_witness :
    (SSHDetector.init 10 2 0 1).isOk = true ∧
    ({ timeout := 10, max_retries := 2, min_delay := 0, max_delay := 1 :
        SSHDetector }).timeout = 10 :=
  ⟨(c7_config_validation 10 2 0 1).1.mpr ⟨by decide, by decide, by decide, by decide⟩,
   ((c7_config_validation 10 2 0 1).2
      { timeout := 10, max_retries := 2, min_delay := 0, max_delay := 1 } rfl).1⟩

/-- C8: for a port outside 1–65535, `detect` performs no login attempt and
returns the failure dictionary reporting the invalid port. -/
theorem c8_invalid_port (D : SSHDetector) (ok : Nat → Outcome) (jit : Nat → Rat)
    (ok2 : Nat → Nat → Outcome) (target : String) (port : Int) (username : String)
    (passwords : List String) (key : Option String)
    (h : port < 1 ∨ 65535 < port) :
    detect D ok jit ok2 target port username passwords key
      = ([], .ret (.full { baseResult target port username with
                             error := some (.invalidPort port) })) := by
  have hp : ¬(1 ≤ port ∧ port ≤ 65535) := by rintro ⟨a, b⟩; rcases h with h | h <;> omega
  simp [detect, hp]

/-- Witness for C8 at port 70000. -/
theorem c8_invalid_port_witness :
    detect ⟨10, 2, 0, 1⟩ (fun _ => .other) (fun _ => 1) (fun _ _ => .other)
        "1.2.3.4" 70000 "root" ["a"] none
      = ([], .ret (.full { baseResult "1.2.3.4" 70000 "root" with
                             error := some (.invalidPort 70000) })) :=
  c8_invalid_port _ _ _ _ _ _ _ _ _ (Or.inr (by decide))

/-- With `max_retries = 0` the inner password loop runs zero iterations for
every password, so the outer loop walks the whole list producing no events
and returns the initial dictionary with the carried error. -/
theorem passwordLoop_zero (D : SSHDetector) (hD : D.max_retries = 0)
    (ok2 : Nat → Nat → Outcome) (tgt : String) (port : Int) (user : String) :
    ∀ (l : List String) (idx : Nat) (err : Option ErrMsg),
      passwordLoop D ok2 tgt port user l idx err
        = ([], some { baseResult tgt port user with error := err })
  | [], _, _ => rfl
  | _ :: rest, idx, err => by
      have ih := passwordLoop_zero D hD ok2 tgt port user rest (idx + 1) err
      simp [passwordLoop, hD, passwordRetryLoop, ih]

/-- With `max_retries = 0` the password phase of `detect` contributes no
events and returns the untouched outer result dictionary. -/
theorem detectPassPhase_zero (D : SSHDetector) (hD : D.max_retries = 0)
    (ok2 : Nat → Nat → Outcome) (tgt : String) (port : Int) (user : String)
    (passwords : List String) (evs : List Event) :
    detectPassPhase D ok2 tgt port user passwords evs
      = (evs, .ret (.full (baseResult tgt port user))) := by
  unfold detectPassPhase
  by_cases hem : passwords.isEmpty
  · simp [hem]
  · rw [if_neg hem]
    simp [tryPasswordAuthentication, passwordLoop_zero D hD, baseResult]

/-- C9: a detector constructed with `max_retries = 0` performs zero login
attempts on both the key path and the password path and always returns a
result with `success = False` (and never raises). -/
theorem c9_zero_retries (D : SSHDetector) (hD : D.max_retries = 0)
    (ok : Nat → Outcome) (jit : Nat → Rat) (ok2 : Nat → Nat → Outcome)
    (target : String) (port : Int) (username : String)
    (passwords : List String) (key : Option String) :
    (detect D ok jit ok2 target port username passwords key).1 = [] ∧
    DetectOut.successB (detect D ok jit ok2 target port username passwords key).2 = false ∧
    (detect D ok jit ok2 target port username passwords key).2 ≠ DetectOut.raised := by
  unfold detect
  by_cases hp : ¬(1 ≤ port ∧ port ≤ 65535)
  · simp [hp, DetectOut.successB, DetectResult.successB, baseResult]
  · rw [if_neg hp]
    by_cases he : target = "" ∨ username = ""
    · simp [he, DetectOut.successB, DetectResult.successB]
    · rw [if_neg he]
      have hkey0 : ∀ kp, tryKeyAuthentication D ok jit target port username kp
          = ([], { baseResult target port username with key_used := some kp }) := by
        intro kp
        unfold tryKeyAuthentication
        rw [hD]
        rfl
      cases key with
      | none =>
          rw [detectPassPhase_zero D hD]
          simp [DetectOut.successB, DetectResult.successB, baseResult]
      | some kp =>
          simp only [hkey0 kp, baseResult]
          rw [if_neg (by simp)]
          rw [detectPassPhase_zero D hD]
          simp [DetectOut.successB, DetectResult.successB, baseResult]

/-- Witness for C9: even with oracles that would report success, nothing is
attempted when `max_retries = 0`. -/
theorem c9_zero_retries_witness :
    (detect ⟨10, 0, 0, 1⟩ (fun _ => .success) (fun _ => 1) (fun _ _ => .success)
        "1.2.3.4" 22 "root" ["a", "b"] (some "k")).1 = [] ∧
    DetectOut.successB (detect ⟨10, 0, 0, 1⟩ (fun _ => .success) (fun _ => 1)
        (fun _ _ => .success) "1.2.3.4" 22 "root" ["a", "b"] (some "k")).2 = false ∧
    (detect ⟨10, 0, 0, 1⟩ (fun _ => .success) (fun _ => 1) (fun _ _ => .success)
        "1.2.3.4" 22 "root" ["a", "b"] (some "k")).2 ≠ DetectOut.raised :=
  c9_zero_retries ⟨10, 0, 0, 1⟩ rfl _ _ _ _ _ _ _ _

/-- C10 counterexample: a call with an empty target whose port is also
invalid returns the full port-error dictionary (all seven fields), not the
two-field dictionary the claim describes for every empty-target call. -/
theorem c10_counterexample :
    (detect ⟨10, 2, 0, 1⟩ (fun _ => .other) (fun _ => 1) (fun _ _ => .other)
        "" 0 "" [] none).2
      = DetectOut.ret (.full { target := "", port := 0, username := "",
                               success := false, password := none, key_used := none,
                               error := some (.invalidPort 0) }) ∧
    DetectOut.returnsShort (detect ⟨10, 2, 0, 1⟩ (fun _ => .other) (fun _ => 1)
        (fun _ _ => .other) "" 0 "" [] none).2 = false := by
  decide

/-- C10 amended: provided the port is within 1–65535 (the port check runs
first), a call with an empty target or username returns before any login
attempt with the two-field dictionary holding only the error and
`success = False`. -/
theorem c10_amended_early_return (D : SSHDetector) (ok : Nat → Outcome)
    (jit : Nat → Rat) (ok2 : Nat → Nat → Outcome) (target : String) (port : Int)
    (username : String) (passwords : List String) (key : Option String)
    (h1 : 1 ≤ port) (h2 : port ≤ 65535) (he : target = "" ∨ username = "") :
    detect D ok jit ok2 target port username passwords key
      = ([], .ret (.short .emptyTargetOrUsername false)) := by
  unfold detect
  rw [if_neg (not_not_intro ⟨h1, h2⟩), if_pos he]

/-- Witness for the amended C10 at a concrete empty target. -/
theorem c10_amended_early_return_witness :
    detect ⟨10, 2, 0, 1⟩ (fun _ => .other) (fun _ => 1) (fun _ _ => .other)
        "" 22 "root" ["a"] none
      = ([], .ret (.short .emptyTargetOrUsername false)) :=
  c10_amended_early_return _ _ _ _ _ _ _ _ _ (by decide) (by decide) (Or.inl rfl)

/-- A task contributes a record exactly when `taskRecorded` holds. -/
theorem run_detection_isSome (t : TrialTask) :
    (run_detection t).isSome = taskRecorded t := by
  rcases t with ⟨pr, sup, ipv, tgt, port, user, oc⟩
  cases sup with
  | false => simp [run_detection, taskRecorded]
  | true =>
      cases ipv with
      | false => simp [run_detection, taskRecorded]
      | true =>
          cases oc with
          | timedOut => simp [run_detection, taskRecorded]
          | finished out =>
              cases out with
              | raised => simp [run_detection, taskRecorded]
              | ret r =>
                  cases r with
                  | full fr =>
                      by_cases hs : fr.success <;> simp [run_detection, taskRecorded, hs]
                  | short e s => simp [run_detection, taskRecorded]

/-- C2 counterexample: one task that hits the hard per-task deadline yields
an empty collected result set, not a single `TrialResult` with a timeout
error as the claim requires. -/
theorem c2_counterexample :
    gatherResults [{ protocol := "ssh", supported := true, ipValid := true,
                     target := "1.2.3.4", port := 22, username := "root",
                     outcome := .timedOut }] = [] ∧
    (gatherResults [{ protocol := "ssh", supported := true, ipValid := true,
                      target := "1.2.3.4", port := 22, username := "root",
                      outcome := .timedOut }]).length ≠ 1 := by
  constructor
  · rfl
  · intro h
    simp [gatherResults, run_detection] at h

/-- C2 amended: the collected result set contains exactly one record per
*successful* task (protocol supported, target IP valid, detector returned a
full result with `success` true); a task exceeding the deadline is caught
and logged but contributes no record; failures never abort the run — every
task is processed independently. -/
theorem c2_amended_partial_results (ts : List TrialTask) :
    (gatherResults ts).length = ts.countP taskRecorded ∧
    ∀ t ∈ ts, t.outcome = .timedOut → run_detection t = none := by
  constructor
  · induction ts with
    | nil => rfl
    | cons t rest ih =>
        have h := run_detection_isSome t
        unfold gatherResults at ih ⊢
        rw [List.filterMap_cons, List.countP_cons]
        cases hrd : run_detection t with
        | none =>
            rw [hrd] at h
            simp only [Option.isSome_none] at h
            simp [ih, ← h]
        | some r =>
            rw [hrd] at h
            simp only [Option.isSome_some] at h
            simp [ih, ← h]
  · intro t _ htm
    rcases t with ⟨pr, sup, ipv, tgt, port, user, oc⟩
    simp only at htm
    subst htm
    cases sup <;> cases ipv <;> simp [run_detection]

/-- Witness for the amended C2: one timed-out task and one successful task
give exactly one record. -/
theorem c2_amended_partial_results_witness :
    (gatherResults
        [{ protocol := "ssh", supported := true, ipValid := true, target := "1.2.3.4",
           port := 22, username := "root", outcome := .timedOut },
         { protocol := "ssh", supported := true, ipValid := true, target := "1.2.3.5",
           port := 22, username := "root",
           outcome := .finished (.ret (.full { baseResult "1.2.3.5" 22 "root" with
                                                 success := true,
                                                 password := some "a" })) }]).length = 1 ∧
    run_detection { protocol := "ssh", supported := true, ipValid := true,
                    target := "1.2.3.4", port := 22, username := "root",
                    outcome := .timedOut } = none := by
  refine ⟨(c2_amended_partial_results _).1.trans (by rfl), ?_⟩
  exact (c2_amended_partial_results
      [{ protocol := "ssh", supported := true, ipValid := true, target := "1.2.3.4",
         port := 22, username := "root", outcome := .timedOut }]).2 _
      (List.mem_singleton.mpr rfl) rfl

/-- C3 counterexample: a successful password trial stores the raw plaintext
secret in the returned result — reading the result back yields the literal
password `"hunter2"`, not a masked or reference form. -/
theorem c3_counterexample :
    DetectOut.passwordField
      (detect ⟨10, 2, 0, 1⟩ (fun _ => .other) (fun _ => 1) (fun _ _ => .success)
          "1.2.3.4" 22 "root" ["hunter2"] none).2 = some "hunter2" := by
  rfl

/-- C3 amended: the `TrialResult` stores the succeeding password in
plaintext, `run_detection` copies it in plaintext into the handler record,
and the HTML report renders it in plaintext; only the detector's own
success log line masks the secret, as an asterisk string of the same
length. -/
theorem c3_amended_masking (D : SSHDetector) (ok2 : Nat → Nat → Outcome)
    (tgt : String) (port : Int) (user : String) (p : String) (rest : List String)
    (protocol : String) (fr : FullResult) (r : ResultRecord)
    (hm : 1 ≤ D.max_retries) (hs : ok2 0 0 = .success) :
    (tryPasswordAuthentication D ok2 tgt port user (p :: rest)).2
        = some { baseResult tgt port user with success := true, password := some p }
    ∧ (fr.success = true →
        run_detection { protocol := protocol, supported := true, ipValid := true,
                        target := tgt, port := port, username := user,
                        outcome := .finished (.ret (.full fr)) }
          = some (ResultHandler.add_result protocol tgt port user
                    fr.password fr.success fr.error))
    ∧ (r.password = some p → p ≠ "" → reportPasswordCell r = p)
    ∧ (masked_password p).length = p.length
    ∧ (masked_password p).data.all (fun c => c == '*') = true := by
  obtain ⟨mf, hmf⟩ : ∃ mf, D.max_retries = mf + 1 := ⟨D.max_retries - 1, by omega⟩
  refine ⟨?_, ?_, ?_, ?_, ?_⟩
  · simp [tryPasswordAuthentication, passwordLoop, hmf, passwordRetryLoop, hs, baseResult]
  · intro h
    simp [run_detection, h]
  · intro h hne
    unfold reportPasswordCell
    rw [h]
    exact if_neg hne
  · rw [masked_password, String.length_mk, List.length_replicate]
  · simp only [masked_password, List.all_eq_true]
    intro c hc
    rw [List.eq_of_mem_replicate hc]
    rfl

/-- Witness for the amended C3 on the concrete password `"hunter2"`. -/
theorem c3_amended_masking_witness :
    (tryPasswordAuthentication ⟨10, 2, 0, 1⟩ (fun _ _ => .success)
        "1.2.3.4" 22 "root" ["hunter2"]).2
      = some { baseResult "1.2.3.4" 22 "root" with
                 success := true, password := some "hunter2" } ∧
    reportPasswordCell { protocol := "ssh", target := "1.2.3.4", port := 22,
                         username := "root", password := some "hunter2",
                         success := true, error := none } = "hunter2" ∧
    (masked_password "hunter2").length = "hunter2".length := by
  have h := c3_amended_masking ⟨10, 2, 0, 1⟩ (fun _ _ => .success)
    "1.2.3.4" 22 "root" "hunter2" []
    "ssh" (baseResult "1.2.3.4" 22 "root")
    { protocol := "ssh", target := "1.2.3.4", port := 22, username := "root",
      password := some "hunter2", success := true, error := none }
    (by decide) rfl
  exact ⟨h.1, h.2.2.1 rfl (by decide), h.2.2.2.1⟩

/-- When no key attempt succeeds or is auth-rejected, every attempt falls
into the generic handler and the key loop's trace is `keyEvtsFrom`. -/
theorem keyRetryLoop_generic_events (D : SSHDetector) (ok : Nat → Outcome) (jit : Nat → Rat)
    (tgt : String) (port : Int) (user : String) (kp : String)
    (hok : ∀ n, ok n ≠ Outcome.success ∧ ok n ≠ Outcome.authFail) :
    ∀ (fuel i : Nat) (err : Option ErrMsg),
      (keyRetryLoop D ok jit tgt port user kp fuel i err).1
        = keyEvtsFrom D.max_retries jit i fuel := by
  intro fuel
  induction fuel with
  | zero => intro i err; rfl
  | succ f ih =>
      intro i err
      have hcast : ((i : Int) < (D.max_retries : Int) - 1) ↔ i + 1 < D.max_retries := by
        omega
      cases h : ok i with
      | success => exact absurd h (hok i).1
      | authFail => exact absurd h (hok i).2
      | noValidConn =>
          by_cases hc : i + 1 < D.max_retries <;>
            simp [keyRetryLoop, h, keyEvtsFrom, hcast, hc, ih]
      | badHostKey =>
          by_cases hc : i + 1 < D.max_retries <;>
            simp [keyRetryLoop, h, keyEvtsFrom, hcast, hc, ih]
      | sshExc =>
          by_cases hc : i + 1 < D.max_retries <;>
            simp [keyRetryLoop, h, keyEvtsFrom, hcast, hc, ih]
      | other =>
          by_cases hc : i + 1 < D.max_retries <;>
            simp [keyRetryLoop, h, keyEvtsFrom, hcast, hc, ih]

/-- `keyEvtsFrom` holds one key attempt per loop iteration. -/
theorem keyEvtsFrom_attempts (m : Nat) (jit : Nat → Rat) :
    ∀ (fuel i : Nat), attemptsOf .key (keyEvtsFrom m jit i fuel) = fuel := by
  intro fuel
  induction fuel with
  | zero => intro i; rfl
  | succ f ih =>
      intro i
      have hr := ih (i + 1)
      unfold attemptsOf at hr ⊢
      unfold keyEvtsFrom
      by_cases hc : i + 1 < m <;>
        simp [hc, List.countP_cons, List.countP_append, hr]

/-- `keyEvtsFrom` holds one sleep per iteration except the final one. -/
theorem keyEvtsFrom_sleeps (m : Nat) (jit : Nat → Rat) :
    ∀ (fuel i : Nat), i + fuel = m →
      countSleeps (keyEvtsFrom m jit i fuel) = fuel - 1 := by
  intro fuel
  induction fuel with
  | zero => intro i _; rfl
  | succ f ih =>
      intro i hm
      unfold keyEvtsFrom countSleeps
      rw [List.countP_cons]
      cases f with
      | zero =>
          rw [if_neg (by omega)]
          simp [keyEvtsFrom]
      | succ f2 =>
          rw [if_pos (by omega), List.countP_append]
          have hr := ih (i + 1) (by omega)
          unfold countSleeps at hr
          rw [hr]
          simp
          omega

/-- All sleeps in `keyEvtsFrom` carry jitter values, so they stay within
the jitter oracle's range. -/
theorem keyEvtsFrom_sleepWithin (m : Nat) (jit : Nat → Rat) (mn mx : Rat)
    (hjit : ∀ n, mn ≤ jit n ∧ jit n < mx) :
    ∀ (fuel i : Nat), (keyEvtsFrom m jit i fuel).all (Event.sleepWithin mn mx) = true := by
  intro fuel
  induction fuel with
  | zero => intro i; rfl
  | succ f ih =>
      intro i
      by_cases hc : i + 1 < m <;>
        simp [keyEvtsFrom, hc, Event.sleepWithin, ih, (hjit i).1, (hjit i).2]

/-- The key loop's trace never contains a password attempt. -/
theorem keyRetryLoop_noPassword (D : SSHDetector) (ok : Nat → Outcome) (jit : Nat → Rat)
    (tgt : String) (port : Int) (user : String) (kp : String) :
    ∀ (fuel i : Nat) (err : Option ErrMsg),
      ((keyRetryLoop D ok jit tgt port user kp fuel i err).1).all
        Event.notPasswordAttempt = true := by
  intro fuel
  induction fuel with
  | zero => intro i err; rfl
  | succ f ih =>
      intro i err
      cases h : ok i with
      | success => simp [keyRetryLoop, h, Event.notPasswordAttempt]
      | authFail => simp [keyRetryLoop, h, Event.notPasswordAttempt]
      | noValidConn =>
          by_cases hc : (i : Int) < (D.max_retries : Int) - 1 <;>
            simp [keyRetryLoop, h, hc, Event.notPasswordAttempt, ih]
      | badHostKey =>
          by_cases hc : (i : Int) < (D.max_retries : Int) - 1 <;>
            simp [keyRetryLoop, h, hc, Event.notPasswordAttempt, ih]
      | sshExc =>
          by_cases hc : (i : Int) < (D.max_retries : Int) - 1 <;>
            simp [keyRetryLoop, h, hc, Event.notPasswordAttempt, ih]
      | other =>
          by_cases hc : (i : Int) < (D.max_retries : Int) - 1 <;>
            simp [keyRetryLoop, h, hc, Event.notPasswordAttempt, ih]

/-- A trace with no password attempt trivially satisfies any password-index
bound. -/
theorem all_passIdxLe_of_noPassword (evs : List Event) (b : Nat)
    (h : evs.all Event.notPasswordAttempt = true) :
    evs.all (Event.passIdxLe b) = true := by
  rw [List.all_eq_true] at h ⊢
  intro e he
  have he2 := h e he
  cases e with
  | attempt c k =>
      cases c with
      | key => rfl
      | password j => simp [Event.notPasswordAttempt] at he2
  | sleep d => rfl

/-- With at least one iteration the inner password loop makes exactly one
attempt (every source handler breaks, a success returns, anything else
raises). -/
theorem passwordRetryLoop_events_succ (ok2 : Nat → Nat → Outcome) (pIdx f i : Nat) :
    (passwordRetryLoop ok2 pIdx (f + 1) i).1 = [Event.attempt (.password pIdx) i] := by
  cases h : ok2 pIdx i <;> simp [passwordRetryLoop, h]

/-- The inner loop's trace only mentions its own password index. -/
theorem passwordRetryLoop_passIdxLe (ok2 : Nat → Nat → Outcome) (pIdx b : Nat)
    (hb : pIdx ≤ b) :
    ∀ (fuel i : Nat),
      ((passwordRetryLoop ok2 pIdx fuel i).1).all (Event.passIdxLe b) = true := by
  intro fuel i
  cases fuel with
  | zero => rfl
  | succ f =>
      rw [passwordRetryLoop_events_succ]
      simp [Event.passIdxLe, hb]

/-- Shift of an indexed range of password attempts, used to peel one
password off the list. -/
theorem range_map_shift (n idx : Nat) :
    (List.range (n + 1)).map (fun k => Event.attempt (.password (idx + k)) 0)
      = Event.attempt (.password idx) 0
          :: (List.range n).map (fun k => Event.attempt (.password (idx + 1 + k)) 0) := by
  rw [List.range_succ_eq_map, List.map_cons, List.map_map, Nat.add_zero]
  congr 1
  refine List.map_congr_left fun a _ => ?_
  show Event.attempt (.password (idx + (a + 1))) 0 = Event.attempt (.password (idx + 1 + a)) 0
  exact congrArg (fun x => Event.attempt (.password x) 0) (by omega)

/-- A trace of pure password attempts contains no sleep. -/
theorem countSleeps_attempts (f : Nat → CredRef) (g : Nat → Nat) :
    ∀ l : List Nat, countSleeps (l.map (fun k => Event.attempt (f k) (g k))) = 0 := by
  intro l
  induction l with
  | nil => rfl
  | cons a t ih =>
      simp only [List.map_cons]
      unfold countSleeps at ih ⊢
      rw [List.countP_cons, ih]
      simp

/-- When every inner password run lets the outer loop advance (and the
retry bound is positive, so the inner loop really runs), the password loop
attempts each password exactly once, in order, and ends unsuccessfully. -/
theorem passwordLoop_allAdvance (D : SSHDetector) (ok2 : Nat → Nat → Outcome)
    (tgt : String) (port : Int) (user : String)
    (hm : 1 ≤ D.max_retries)
    (hadv : ∀ i, ((passwordRetryLoop ok2 i D.max_retries 0).2).advances = true) :
    ∀ (l : List String) (idx : Nat) (err : Option ErrMsg),
      (passwordLoop D ok2 tgt port user l idx err).1
          = (List.range l.length).map (fun k => Event.attempt (.password (idx + k)) 0)
        ∧ ∃ e, (passwordLoop D ok2 tgt port user l idx err).2
            = some { baseResult tgt port user with error := e } := by
  intro l
  induction l with
  | nil => intro idx err; exact ⟨rfl, err, rfl⟩
  | cons p rest ih =>
      intro idx err
      obtain ⟨mf, hmf⟩ : ∃ mf, D.max_retries = mf + 1 := ⟨D.max_retries - 1, by omega⟩
      have hadvi := hadv idx
      cases h : (passwordRetryLoop ok2 idx D.max_retries 0).2 with
      | success => rw [h] at hadvi; simp [InnerRes.advances] at hadvi
      | raised => rw [h] at hadvi; simp [InnerRes.advances] at hadvi
      | exhausted =>
          exfalso
          rw [hmf] at h
          cases hoc : ok2 idx 0 <;> simp [passwordRetryLoop, hoc] at h
      | broke e =>
          obtain ⟨ih1, e', ih2⟩ := ih (idx + 1) (some e)
          have hone : (passwordRetryLoop ok2 idx D.max_retries 0).1
              = [Event.attempt (.password idx) 0] := by
            rw [hmf]
            exact passwordRetryLoop_events_succ ok2 idx mf 0
          refine ⟨?_, e', ?_⟩
          · simp only [passwordLoop, h, hone, ih1, List.length_cons]
            rw [range_map_shift]
            rfl
          · simp only [passwordLoop, h]
            exact ih2

/-- `detectPassPhase` under an all-advance oracle: one attempt per
password, final result is the untouched outer dictionary. -/
theorem detectPassPhase_allAdvance (D : SSHDetector) (ok2 : Nat → Nat → Outcome)
    (tgt : String) (port : Int) (user : String) (passwords : List String)
    (evs : List Event)
    (hm : 1 ≤ D.max_retries)
    (hadv : ∀ i, ((passwordRetryLoop ok2 i D.max_retries 0).2).advances = true) :
    detectPassPhase D ok2 tgt port user passwords evs
      = (evs ++ (List.range passwords.length).map (fun k => Event.attempt (.password k) 0),
         .ret (.full (baseResult tgt port user))) := by
  unfold detectPassPhase
  cases passwords with
  | nil => simp
  | cons p rest =>
      obtain ⟨h1, e', h2⟩ :=
        passwordLoop_allAdvance D ok2 tgt port user hm hadv (p :: rest) 0 none
      rw [if_neg (by simp)]
      simp only [tryPasswordAuthentication, h2, h1]
      simp [baseResult]

/-- C1 counterexample: with `max_retries = 2` and every key attempt failing
with a transient error, the key credential is attempted 2 times (not
`maxRetries+1 = 3`) and exactly 1 jitter sleep occurs (not `maxRetries = 2`). -/
theorem c1_counterexample :
    attemptsOf .key (tryKeyAuthentication ⟨10, 2, 0, 1⟩ (fun _ => .other)
        (fun _ => (1 : Rat) / 2) "1.2.3.4" 22 "root" "k").1 = 2 ∧
    attemptsOf .key (tryKeyAuthentication ⟨10, 2, 0, 1⟩ (fun _ => .other)
        (fun _ => (1 : Rat) / 2) "1.2.3.4" 22 "root" "k").1 ≠ 2 + 1 ∧
    countSleeps (tryKeyAuthentication ⟨10, 2, 0, 1⟩ (fun _ => .other)
        (fun _ => (1 : Rat) / 2) "1.2.3.4" 22 "root" "k").1 = 1 ∧
    countSleeps (tryKeyAuthentication ⟨10, 2, 0, 1⟩ (fun _ => .other)
        (fun _ => (1 : Rat) / 2) "1.2.3.4" 22 "root" "k").1 ≠ 2 := by
  decide

/-- C1 amended: when every key attempt hits the generic handler, the key is
attempted exactly `maxRetries` times with exactly `maxRetries - 1` sleeps,
interleaved strictly between consecutive tries, each sleep drawn from the
jitter oracle's range; on the password path a transient connection failure
breaks immediately, so each password is attempted exactly once and the
password path never sleeps. -/
theorem c1_amended_retry_trace (D : SSHDetector) (ok : Nat → Outcome) (jit : Nat → Rat)
    (ok2 : Nat → Nat → Outcome) (tgt : String) (port : Int) (user : String)
    (kp : String) (passwords : List String)
    (hok : ∀ n, ok n = .other)
    (hjit : ∀ n, D.min_delay ≤ jit n ∧ jit n < D.max_delay)
    (hok2 : ∀ i j, ok2 i j = .noValidConn)
    (hm : 1 ≤ D.max_retries) :
    (tryKeyAuthentication D ok jit tgt port user kp).1
        = keyEvtsFrom D.max_retries jit 0 D.max_retries
    ∧ attemptsOf .key (tryKeyAuthentication D ok jit tgt port user kp).1 = D.max_retries
    ∧ countSleeps (tryKeyAuthentication D ok jit tgt port user kp).1 = D.max_retries - 1
    ∧ ((tryKeyAuthentication D ok jit tgt port user kp).1).all
        (Event.sleepWithin D.min_delay D.max_delay) = true
    ∧ (tryPasswordAuthentication D ok2 tgt port user passwords).1
        = (List.range passwords.length).map (fun k => Event.attempt (.password k) 0)
    ∧ countSleeps (tryPasswordAuthentication D ok2 tgt port user passwords).1 = 0 := by
  have hok' : ∀ n, ok n ≠ Outcome.success ∧ ok n ≠ Outcome.authFail := by
    intro n
    rw [hok n]
    exact ⟨by decide, by decide⟩
  have hkey : (tryKeyAuthentication D ok jit tgt port user kp).1
      = keyEvtsFrom D.max_retries jit 0 D.max_retries :=
    keyRetryLoop_generic_events D ok jit tgt port user kp hok' D.max_retries 0 none
  have hadv : ∀ i, ((passwordRetryLoop ok2 i D.max_retries 0).2).advances = true := by
    intro i
    obtain ⟨mf, hmf⟩ : ∃ mf, D.max_retries = mf + 1 := ⟨D.max_retries - 1, by omega⟩
    rw [hmf]
    simp [passwordRetryLoop, hok2 i 0, InnerRes.advances]
  obtain ⟨hp1, e', hp2⟩ := passwordLoop_allAdvance D ok2 tgt port user hm hadv passwords 0 none
  have hpw : (tryPasswordAuthentication D ok2 tgt port user passwords).1
      = (List.range passwords.length).map (fun k => Event.attempt (.password k) 0) := by
    unfold tryPasswordAuthentication
    rw [hp1]
    simp
  refine ⟨hkey, ?_, ?_, ?_, hpw, ?_⟩
  · rw [hkey]
    exact keyEvtsFrom_attempts D.max_retries jit D.max_retries 0
  · rw [hkey]
    exact keyEvtsFrom_sleeps D.max_retries jit D.max_retries 0 (by omega)
  · rw [hkey]
    exact keyEvtsFrom_sleepWithin D.max_retries jit D.min_delay D.max_delay hjit
      D.max_retries 0
  · rw [hpw]
    exact countSleeps_attempts _ _ _

/-- Witness for the amended C1 with `max_retries = 3`. -/
theorem c1_amended_retry_trace_witness :
    attemptsOf .key (tryKeyAuthentication ⟨10, 3, 0, 2⟩ (fun _ => .other)
        (fun _ => 1) "1.2.3.4" 22 "root" "k").1 = 3 ∧
    countSleeps (tryKeyAuthentication ⟨10, 3, 0, 2⟩ (fun _ => .other)
        (fun _ => 1) "1.2.3.4" 22 "root" "k").1 = 2 ∧
    (tryPasswordAuthentication ⟨10, 3, 0, 2⟩ (fun _ _ => .noValidConn)
        "1.2.3.4" 22 "root" ["a", "b"]).1
      = [Event.attempt (.password 0) 0, Event.attempt (.password 1) 0] := by
  have h := c1_amended_retry_trace ⟨10, 3, 0, 2⟩ (fun _ => .other)
    (fun _ => 1) (fun _ _ => .noValidConn) "1.2.3.4" 22 "root" "k" ["a", "b"]
    (fun _ => rfl)
    (by intro n
        show (0 : Rat) ≤ 1 ∧ (1 : Rat) < 2
        decide)
    (fun _ _ => rfl) (by decide)
  exact ⟨h.2.1, h.2.2.1, h.2.2.2.2.1.trans (by rfl)⟩

/-- C4 counterexample: on the key path a host-key verification failure is
retried — with `max_retries = 2` the key is attempted twice, not once as
the claim's break-without-further-retries requires. -/
theorem c4_counterexample :
    attemptsOf .key (tryKeyAuthentication ⟨10, 2, 0, 1⟩ (fun _ => .badHostKey)
        (fun _ => (1 : Rat) / 2) "1.2.3.4" 22 "root" "k").1 = 2 ∧
    attemptsOf .key (tryKeyAuthentication ⟨10, 2, 0, 1⟩ (fun _ => .badHostKey)
        (fun _ => (1 : Rat) / 2) "1.2.3.4" 22 "root" "k").1 ≠ 1 := by
  decide

/-- C4 amended: host-key and protocol errors are non-retryable only on the
password path, where the loop breaks for that credential after a single
attempt and proceeds to the next password; on the key path they fall into
the generic handler and are retried up to the full `maxRetries` budget. -/
theorem c4_amended_nonretryable (D : SSHDetector) (ok : Nat → Outcome) (jit : Nat → Rat)
    (ok2 : Nat → Nat → Outcome) (tgt : String) (port : Int) (user : String) (kp : String)
    (p : String) (rest : List String) (idx : Nat) (err : Option ErrMsg)
    (hm : 1 ≤ D.max_retries)
    (hokk : ∀ n, ok n = .badHostKey ∨ ok n = .sshExc) :
    (ok2 idx 0 = .badHostKey →
        passwordLoop D ok2 tgt port user (p :: rest) idx err
          = (Event.attempt (.password idx) 0
               :: (passwordLoop D ok2 tgt port user rest (idx + 1) (some .badHostKeyMsg)).1,
             (passwordLoop D ok2 tgt port user rest (idx + 1) (some .badHostKeyMsg)).2))
    ∧ (ok2 idx 0 = .sshExc →
        passwordLoop D ok2 tgt port user (p :: rest) idx err
          = (Event.attempt (.password idx) 0
               :: (passwordLoop D ok2 tgt port user rest (idx + 1)
                     (some .sshProtocolError)).1,
             (passwordLoop D ok2 tgt port user rest (idx + 1)
                 (some .sshProtocolError)).2))
    ∧ attemptsOf .key (tryKeyAuthentication D ok jit tgt port user kp).1
        = D.max_retries := by
  obtain ⟨mf, hmf⟩ : ∃ mf, D.max_retries = mf + 1 := ⟨D.max_retries - 1, by omega⟩
  refine ⟨?_, ?_, ?_⟩
  · intro h
    simp [passwordLoop, hmf, passwordRetryLoop, h]
  · intro h
    simp [passwordLoop, hmf, passwordRetryLoop, h]
  · have hok' : ∀ n, ok n ≠ Outcome.success ∧ ok n ≠ Outcome.authFail := by
      intro n
      rcases hokk n with h | h <;> rw [h] <;> exact ⟨by decide, by decide⟩
    have hkey : (tryKeyAuthentication D ok jit tgt port user kp).1
        = keyEvtsFrom D.max_retries jit 0 D.max_retries :=
      keyRetryLoop_generic_events D ok jit tgt port user kp hok' D.max_retries 0 none
    rw [hkey]
    exact keyEvtsFrom_attempts D.max_retries jit D.max_retries 0

/-- Witness for the amended C4: a host-key failure on password 0 breaks to
password 1, while on the key path it is retried twice. -/
theorem c4_amended_nonretryable_witness :
    passwordLoop ⟨10, 2, 0, 1⟩ (fun _ _ => .badHostKey) "1.2.3.4" 22 "root"
        ["a", "b"] 0 none
      = (Event.attempt (.password 0) 0
           :: (passwordLoop ⟨10, 2, 0, 1⟩ (fun _ _ => .badHostKey) "1.2.3.4" 22 "root"
                 ["b"] 1 (some .badHostKeyMsg)).1,
         (passwordLoop ⟨10, 2, 0, 1⟩ (fun _ _ => .badHostKey) "1.2.3.4" 22 "root"
             ["b"] 1 (some .badHostKeyMsg)).2) ∧
    attemptsOf .key (tryKeyAuthentication ⟨10, 2, 0, 1⟩ (fun _ => .badHostKey)
        (fun _ => (1 : Rat) / 2) "1.2.3.4" 22 "root" "k").1 = 2 := by
  have h := c4_amended_nonretryable ⟨10, 2, 0, 1⟩ (fun _ => .badHostKey)
    (fun _ => (1 : Rat) / 2) (fun _ _ => .badHostKey) "1.2.3.4" 22 "root" "k"
    "a" ["b"] 0 none (by decide) (fun _ => Or.inl rfl)
  exact ⟨h.1 rfl, h.2.2⟩

/-- C5 counterexample: with `max_retries = 0` (accepted by construction)
and one password, the credential is attempted zero times, not exactly once
as the claim requires, even though every attempt (vacuously) rejects. -/
theorem c5_counterexample :
    attemptsOf (.password 0)
      (detect ⟨10, 0, 0, 1⟩ (fun _ => .authFail) (fun _ => 1) (fun _ _ => .authFail)
          "1.2.3.4" 22 "root" ["a"] none).1 ≠ 1 := by
  decide

/-- C5 amended: provided `maxRetries ≥ 1`, when every attempt is
auth-rejected the engine tries the key (if supplied) once, then every
password in list order exactly once each, and returns the unsuccessful
outer dictionary. -/
theorem c5_amended_all_rejected (D : SSHDetector) (ok : Nat → Outcome) (jit : Nat → Rat)
    (ok2 : Nat → Nat → Outcome) (target : String) (port : Int) (username : String)
    (passwords : List String) (key : Option String)
    (hm : 1 ≤ D.max_retries)
    (hok : ∀ n, ok n = .authFail) (hok2 : ∀ i j, ok2 i j = .authFail)
    (h1 : 1 ≤ port) (h2 : port ≤ 65535) (htgt : target ≠ "") (huser : username ≠ "") :
    detect D ok jit ok2 target port username passwords key
      = ((match key with | some _ => [Event.attempt .key 0] | none => [])
           ++ (List.range passwords.length).map (fun k => Event.attempt (.password k) 0),
         .ret (.full (baseResult target port username))) := by
  have hadv : ∀ i, ((passwordRetryLoop ok2 i D.max_retries 0).2).advances = true := by
    intro i
    obtain ⟨mf, hmf⟩ : ∃ mf, D.max_retries = mf + 1 := ⟨D.max_retries - 1, by omega⟩
    rw [hmf]
    simp [passwordRetryLoop, hok2 i 0, InnerRes.advances]
  have hne : ¬(target = "" ∨ username = "") := by
    rintro (h | h)
    · exact htgt h
    · exact huser h
  unfold detect
  rw [if_neg (not_not_intro ⟨h1, h2⟩), if_neg hne]
  cases key with
  | none =>
      rw [detectPassPhase_allAdvance D ok2 target port username passwords [] hm hadv]
  | some kp =>
      obtain ⟨mf, hmf⟩ : ∃ mf, D.max_retries = mf + 1 := ⟨D.max_retries - 1, by omega⟩
      have hkey : tryKeyAuthentication D ok jit target port username kp
          = ([Event.attempt .key 0],
             { baseResult target port username with
                 key_used := some kp, error := some .keyAuthFailed }) := by
        unfold tryKeyAuthentication
        rw [hmf]
        simp [keyRetryLoop, hok 0]
      simp only [hkey]
      rw [if_neg (by simp [baseResult])]
      rw [detectPassPhase_allAdvance D ok2 target port username passwords _ hm hadv]

/-- Witness for the amended C5: key plus two passwords, all rejected, give
exactly three attempts in order and a failed result. -/
theorem c5_amended_all_rejected_witness :
    detect ⟨10, 2, 0, 1⟩ (fun _ => .authFail) (fun _ => 1) (fun _ _ => .authFail)
        "1.2.3.4" 22 "root" ["a", "b"] (some "k")
      = ([Event.attempt .key 0, Event.attempt (.password 0) 0,
          Event.attempt (.password 1) 0],
         .ret (.full (baseResult "1.2.3.4" 22 "root"))) := by
  have h := c5_amended_all_rejected ⟨10, 2, 0, 1⟩ (fun _ => .authFail) (fun _ => 1)
    (fun _ _ => .authFail) "1.2.3.4" 22 "root" ["a", "b"] (some "k")
    (by decide) (fun _ => rfl) (fun _ _ => rfl) (by decide) (by decide)
    (by decide) (by decide)
  exact h.trans (by rfl)

/-- If every inner password run before index `n` lets the outer loop
advance and the run at `n` succeeds, the password loop returns success with
the `n`-th password and its trace never touches a password beyond index
`idx + n`. -/
theorem passwordLoop_firstSuccess (D : SSHDetector) (ok2 : Nat → Nat → Outcome)
    (tgt : String) (port : Int) (user : String) :
    ∀ (l : List String) (idx : Nat) (err : Option ErrMsg) (n : Nat) (hn : n < l.length),
      (∀ i, i < n → ((passwordRetryLoop ok2 (idx + i) D.max_retries 0).2).advances = true) →
      (passwordRetryLoop ok2 (idx + n) D.max_retries 0).2 = .success →
      (∃ e, (passwordLoop D ok2 tgt port user l idx err).2
          = some { baseResult tgt port user with
                     success := true, password := some (l.get ⟨n, hn⟩), error := e })
      ∧ ((passwordLoop D ok2 tgt port user l idx err).1).all
          (Event.passIdxLe (idx + n)) = true := by
  intro l
  induction l with
  | nil =>
      intro idx err n hn
      simp at hn
  | cons p rest ih =>
      intro idx err n hn hprev hsucc
      cases n with
      | zero =>
          rw [Nat.add_zero] at hsucc
          refine ⟨⟨err, ?_⟩, ?_⟩
          · simp only [passwordLoop, hsucc]
            rfl
          · simp only [passwordLoop, hsucc]
            rw [Nat.add_zero]
            exact passwordRetryLoop_passIdxLe ok2 idx idx (Nat.le_refl idx) _ 0
      | succ n2 =>
          have hlt : n2 < rest.length := by
            simp only [List.length_cons] at hn
            omega
          have hadv0 := hprev 0 (Nat.succ_pos n2)
          rw [Nat.add_zero] at hadv0
          have hprev' : ∀ i, i < n2 →
              ((passwordRetryLoop ok2 (idx + 1 + i) D.max_retries 0).2).advances = true := by
            intro i hi
            have hx := hprev (i + 1) (by omega)
            rwa [show idx + (i + 1) = idx + 1 + i from by omega] at hx
          have hsucc' : (passwordRetryLoop ok2 (idx + 1 + n2) D.max_retries 0).2
              = .success := by
            rwa [show idx + (n2 + 1) = idx + 1 + n2 from by omega] at hsucc
          have hstep := passwordRetryLoop_passIdxLe ok2 idx (idx + (n2 + 1))
            (by omega) D.max_retries 0
          cases hst : (passwordRetryLoop ok2 idx D.max_retries 0).2 with
          | success =>
              rw [hst] at hadv0
              simp [InnerRes.advances] at hadv0
          | raised =>
              rw [hst] at hadv0
              simp [InnerRes.advances] at hadv0
          | broke e =>
              obtain ⟨⟨e', ih1⟩, ih2⟩ := ih (idx + 1) (some e) n2 hlt hprev' hsucc'
              have ih2' : ((passwordLoop D ok2 tgt port user rest (idx + 1) (some e)).1).all
                  (Event.passIdxLe (idx + (n2 + 1))) = true := by
                rwa [show idx + (n2 + 1) = idx + 1 + n2 from by omega]
              constructor
              · exact ⟨e', by simp only [passwordLoop, hst]; exact ih1⟩
              · simp only [passwordLoop, hst, List.all_append, hstep, ih2', Bool.and_self]
          | exhausted =>
              obtain ⟨⟨e', ih1⟩, ih2⟩ := ih (idx + 1) err n2 hlt hprev' hsucc'
              have ih2' : ((passwordLoop D ok2 tgt port user rest (idx + 1) err).1).all
                  (Event.passIdxLe (idx + (n2 + 1))) = true := by
                rwa [show idx + (n2 + 1) = idx + 1 + n2 from by omega]
              constructor
              · exact ⟨e', by simp only [passwordLoop, hst]; exact ih1⟩
              · simp only [passwordLoop, hst, List.all_append, hstep, ih2', Bool.and_self]

/-- C6: the first `Success` short-circuits the engine — a succeeding key
credential makes `detect` return the key result with no password ever
attempted, and a first-succeeding password at index `n` makes the result
record that password while no password after index `n` is ever attempted. -/
theorem c6_first_success_short_circuits (D : SSHDetector) (ok : Nat → Outcome)
    (jit : Nat → Rat) (ok2 : Nat → Nat → Outcome) (target : String) (port : Int)
    (username : String) (passwords : List String) (kp : String) (key : Option String)
    (n : Nat)
    (h1 : 1 ≤ port) (h2 : port ≤ 65535) (htgt : target ≠ "") (huser : username ≠ "") :
    ((tryKeyAuthentication D ok jit target port username kp).2.success = true →
       detect D ok jit ok2 target port username passwords (some kp)
         = ((tryKeyAuthentication D ok jit target port username kp).1,
            .ret (.full (tryKeyAuthentication D ok jit target port username kp).2))
       ∧ ((detect D ok jit ok2 target port username passwords (some kp)).1).all
           Event.notPasswordAttempt = true)
    ∧ (∀ hn : n < passwords.length,
        (∀ k2, key = some k2 →
            (tryKeyAuthentication D ok jit target port username k2).2.success = false) →
        (∀ i, i < n → ((passwordRetryLoop ok2 i D.max_retries 0).2).advances = true) →
        (passwordRetryLoop ok2 n D.max_retries 0).2 = .success →
        DetectOut.successB (detect D ok jit ok2 target port username passwords key).2 = true
        ∧ DetectOut.passwordField
            (detect D ok jit ok2 target port username passwords key).2
            = some (passwords.get ⟨n, hn⟩)
        ∧ ((detect D ok jit ok2 target port username passwords key).1).all
            (Event.passIdxLe n) = true) := by
  have hne : ¬(target = "" ∨ username = "") := by
    rintro (h | h)
    · exact htgt h
    · exact huser h
  have hport : ¬¬(1 ≤ port ∧ port ≤ 65535) := not_not_intro ⟨h1, h2⟩
  constructor
  · intro hks
    have hdet : detect D ok jit ok2 target port username passwords (some kp)
        = ((tryKeyAuthentication D ok jit target port username kp).1,
           .ret (.full (tryKeyAuthentication D ok jit target port username kp).2)) := by
      unfold detect
      rw [if_neg hport, if_neg hne]
      simp [hks]
    refine ⟨hdet, ?_⟩
    rw [hdet]
    exact keyRetryLoop_noPassword D ok jit target port username kp D.max_retries 0 none
  · intro hn hkf hprev hsucc
    have hprev0 : ∀ i, i < n →
        ((passwordRetryLoop ok2 (0 + i) D.max_retries 0).2).advances = true := by
      intro i hi
      rw [Nat.zero_add]
      exact hprev i hi
    have hsucc0 : (passwordRetryLoop ok2 (0 + n) D.max_retries 0).2 = .success := by
      rw [Nat.zero_add]
      exact hsucc
    obtain ⟨⟨e', hres⟩, hevs⟩ :=
      passwordLoop_firstSuccess D ok2 target port username passwords 0 none n hn
        hprev0 hsucc0
    rw [Nat.zero_add] at hevs
    have hnonempty : passwords.isEmpty = false := by
      cases passwords
      · simp at hn
      · rfl
    have hpp : ∀ evs0 : List Event,
        detectPassPhase D ok2 target port username passwords evs0
          = (evs0 ++ (passwordLoop D ok2 target port username passwords 0 none).1,
             .ret (.full { baseResult target port username with
                             success := true,
                             password := some (passwords.get ⟨n, hn⟩), error := e' })) := by
      intro evs0
      unfold detectPassPhase
      rw [if_neg (by simp [hnonempty])]
      simp only [tryPasswordAuthentication, hres]
      simp [baseResult]
    cases key with
    | none =>
        have hred : detect D ok jit ok2 target port username passwords none
            = detectPassPhase D ok2 target port username passwords [] := by
          unfold detect
          rw [if_neg hport, if_neg hne]
        rw [hred, hpp []]
        refine ⟨rfl, rfl, ?_⟩
        simp only [List.nil_append]
        exact hevs
    | some k2 =>
        have hks := hkf k2 rfl
        have hred : detect D ok jit ok2 target port username passwords (some k2)
            = detectPassPhase D ok2 target port username passwords
                (tryKeyAuthentication D ok jit target port username k2).1 := by
          unfold detect
          rw [if_neg hport, if_neg hne]
          simp [hks]
        have hkall : ((tryKeyAuthentication D ok jit target port username k2).1).all
            (Event.passIdxLe n) = true :=
          all_passIdxLe_of_noPassword _ n
            (keyRetryLoop_noPassword D ok jit target port username k2 D.max_retries 0 none)
        rw [hred, hpp _]
        refine ⟨rfl, rfl, ?_⟩
        simp [List.all_append, hkall, hevs]

/-- Witness for C6: with rejections on passwords 0 and success on password
1, the result records password `"b"` and password 2 is never attempted; a
succeeding key leaves the trace free of password attempts. -/
theorem c6_first_success_short_circuits_witness :
    DetectOut.passwordField
      (detect ⟨10, 2, 0, 1⟩ (fun _ => .authFail) (fun _ => 1)
          (fun i _ => if i = 1 then .success else .authFail)
          "1.2.3.4" 22 "root" ["a", "b", "c"] none).2 = some "b" ∧
    ((detect ⟨10, 2, 0, 1⟩ (fun _ => .authFail) (fun _ => 1)
          (fun i _ => if i = 1 then .success else .authFail)
          "1.2.3.4" 22 "root" ["a", "b", "c"] none).1).all (Event.passIdxLe 1) = true ∧
    ((detect ⟨10, 2, 0, 1⟩ (fun _ => .success) (fun _ => 1) (fun _ _ => .authFail)
          "1.2.3.4" 22 "root" ["a", "b", "c"] (some "k")).1).all
        Event.notPasswordAttempt = true := by
  have h := c6_first_success_short_circuits ⟨10, 2, 0, 1⟩ (fun _ => .authFail) (fun _ => 1)
    (fun i _ => if i = 1 then .success else .authFail) "1.2.3.4" 22 "root"
    ["a", "b", "c"] "k" none 1 (by decide) (by decide) (by decide) (by decide)
  have h2 := c6_first_success_short_circuits ⟨10, 2, 0, 1⟩ (fun _ => .success) (fun _ => 1)
    (fun _ _ => .authFail) "1.2.3.4" 22 "root" ["a", "b", "c"] "k" (some "k") 1
    (by decide) (by decide) (by decide) (by decide)
  obtain ⟨hsB, hpF, hall⟩ := h.2 (by decide) (fun k2 hk => Option.noConfusion hk)
    (by decide) (by decide)
  exact ⟨hpF, hall, (h2.1 rfl).2⟩

end WeakPasswordTest
